import Mathlib

/-!
Shallow embedding of the X11 screen adapter (`CXWindowsScreen.cpp`) of the
synergy repository: the timer scheduler, the native-event pre-dispatch,
the clipboard set/get wrappers, the cursor-position query and the X I/O
fault handler, together with theorems settling the spec's claims about them.

Machine `double` times are idealised as `ℚ` (the source itself says it
ignores floating-point round-off in the ordering argument); `IJob*`
pointers, windows, atoms and X timestamps are idealised as `Nat` ids.
-/

namespace Synergy

/-! ### Timer scheduler (`CXWindowsScreen::CTimer`, `m_timers`) -/

/-- The source's `CXWindowsScreen::CTimer`: a recurring job with its full period
(`m_timeout`) and remaining time (`m_time`).  The constructor asserts
`m_timeout > 0` and calls `reset()`, so a freshly built timer has
`time = timeout`. -/
structure CTimer where
  job : Nat
  timeout : ℚ
  time : ℚ
deriving Repr, DecidableEq

/-- The method `CTimer::reset()`: `m_time = m_timeout`. -/
def CTimer.reset (t : CTimer) : CTimer := { t with time := t.timeout }

/-- The operator `CTimer::operator-=(dt)`: `m_time -= dt`. -/
def CTimer.sub (t : CTimer) (dt : ℚ) : CTimer := { t with time := t.time - dt }

/-- The comparison `CTimer::operator<` lifted to the non-strict order used by the queue. -/
def timerRel (a b : CTimer) : Prop := a.time ≤ b.time

instance : DecidableRel timerRel :=
  fun a b => inferInstanceAs (Decidable (a.time ≤ b.time))

instance : IsTotal CTimer timerRel := ⟨fun a b => le_total a.time b.time⟩

instance : IsTrans CTimer timerRel := ⟨fun _ _ _ hab hbc => le_trans hab hbc⟩

abbrev TimerQueue := List CTimer

/-- Modelled from the spec: `CTimerPriorityQueue` is declared in a header that
is not part of the sources; the spec describes it as "a min-ordering structure
keyed by `remaining`".  We realise it as a list kept sorted by `time`:
`push` is ordered insertion, `top` is the head, `pop` drops the head. -/
def timerPush (t : CTimer) (q : TimerQueue) : TimerQueue :=
  q.orderedInsert timerRel t

/-- The method `CXWindowsScreen::removeTimerNoLock`: rebuild the queue from every entry
whose job is not the removed job ("the hard way"). -/
def removeTimerNoLock (job : Nat) (q : TimerQueue) : TimerQueue :=
  q.filter (fun c => c.job != job)

/-- The method `CXWindowsScreen::removeTimer` (the lock is not part of the embedding). -/
def removeTimer (job : Nat) (q : TimerQueue) : TimerQueue :=
  removeTimerNoLock job q

/-- The method `CXWindowsScreen::addTimer`: remove any previous entry for the job, then
push a fresh `CTimer(job, timeout)` (whose constructor sets `time = timeout`). -/
def addTimer (job : Nat) (timeout : ℚ) (q : TimerQueue) : TimerQueue :=
  timerPush ⟨job, timeout, timeout⟩ (removeTimerNoLock job q)

/-- An entry is due when its remaining time is at or below zero
(`m_timers.top() <= 0.0`). -/
def due (t : CTimer) : Bool := decide (t.time ≤ 0)

/-- The `while (m_timers.top() <= 0.0)` loop of `processTimers`: pop the top
entry, record its job, reset it to its full period and push it back.  The
fuel argument only bounds the iteration count; `processTimers` passes the
queue length, which suffices because a reset entry has positive remaining
time whenever its period is positive. -/
def fireLoop : Nat → TimerQueue → List Nat → TimerQueue × List Nat
  | 0, q, jobs => (q, jobs)
  | _ + 1, [], jobs => ([], jobs)
  | fuel + 1, t :: rest, jobs =>
    if due t then fireLoop fuel (timerPush t.reset rest) (jobs ++ [t.job])
    else (t :: rest, jobs)

/-- The method `CXWindowsScreen::processTimers`: return unchanged if no timer has
expired (`m_timers.empty() || m_timers.top() > time`); otherwise subtract the
elapsed time from every entry, then collect and rearm every due entry,
returning the updated queue together with the jobs to run (which the caller
invokes only after this function returns, outside the timer lock). -/
def processTimers (time : ℚ) (q : TimerQueue) : TimerQueue × List Nat :=
  match q with
  | [] => (q, [])
  | t :: _ =>
    if time < t.time then (q, [])
    else
      let q1 := q.map (fun c => c.sub time)
      fireLoop q1.length q1 []

/-- Repeated ticks: apply `processTimers` for each elapsed value in turn,
accumulating every job handed out for invocation. -/
def runTicks (q : TimerQueue) : List ℚ → TimerQueue × List Nat
  | [] => (q, [])
  | e :: es =>
    let r := processTimers e q
    let r' := runTicks r.1 es
    (r'.1, r.2 ++ r'.2)

/-! ### Timer registration lemmas -/

lemma filter_job_removeTimerNoLock (j : Nat) (q : TimerQueue) :
    (removeTimerNoLock j q).filter (fun c => c.job == j) = [] := by
  induction q with
  | nil => rfl
  | cons c q ih =>
      by_cases h : c.job = j <;>
        simp_all [removeTimerNoLock, List.filter_cons, h]

lemma filter_other_job_removeTimerNoLock (j j' : Nat) (hne : j' ≠ j) (q : TimerQueue) :
    (removeTimerNoLock j q).filter (fun c => c.job == j')
      = q.filter (fun c => c.job == j') := by
  induction q with
  | nil => rfl
  | cons c q ih =>
      by_cases h : c.job = j'
      · have : c.job ≠ j := by simpa [h] using hne
        simp_all [removeTimerNoLock, List.filter_cons, h]
      · by_cases h2 : c.job = j <;>
          simp_all [removeTimerNoLock, List.filter_cons, h]

lemma filter_nil_of_filter_nil {l : List CTimer} {p : CTimer → Bool}
    (h : l.filter p = []) {l' : List CTimer} (hsub : List.Sublist l' l) :
    l'.filter p = [] := by
  have h2 := hsub.filter p
  rw [h] at h2
  exact List.sublist_nil.mp h2

/-- C2 helper: the entries of `addTimer j t q` for job `j` are exactly the one
fresh entry. -/
lemma addTimer_filter_self (j : Nat) (t : ℚ) (q : TimerQueue) :
    (addTimer j t q).filter (fun c => c.job == j) = [⟨j, t, t⟩] := by
  unfold addTimer timerPush
  rw [List.orderedInsert_eq_take_drop, List.filter_append, List.filter_cons]
  rw [filter_nil_of_filter_nil (filter_job_removeTimerNoLock j q)
        (List.takeWhile_sublist _),
      filter_nil_of_filter_nil (filter_job_removeTimerNoLock j q)
        (List.dropWhile_sublist _)]
  simp

/-- C2 helper: `addTimer j t q` leaves the entries of every other job alone. -/
lemma addTimer_filter_other (j j' : Nat) (hne : j' ≠ j) (t : ℚ) (q : TimerQueue) :
    (addTimer j t q).filter (fun c => c.job == j')
      = q.filter (fun c => c.job == j') := by
  unfold addTimer timerPush
  rw [List.orderedInsert_eq_take_drop, List.filter_append, List.filter_cons]
  have hj : ((⟨j, t, t⟩ : CTimer).job == j') = false := by
    simpa using (Ne.symm hne)
  simp only [hj, Bool.false_eq_true, if_false]
  rw [← List.filter_append, List.takeWhile_append_dropWhile,
    filter_other_job_removeTimerNoLock j j' hne]

/-- C2: for every sequence of `addTimer(job, t)` calls with the same job, only
the most recent `t` is active: after `addTimer j t q` the queue holds exactly
one entry for `j`, the fresh `CTimer(j, t)` (so whatever entry an earlier
`addTimer` left for `j` is replaced and there is never a duplicate), entries
of every other job are untouched; `removeTimer j` removes every entry of `j`
and is a no-op when `j` is absent. -/
theorem addTimer_replaces_removeTimer_removes (j j' : Nat) (t : ℚ) (q : TimerQueue) :
    ((addTimer j t q).filter (fun c => c.job == j) = [⟨j, t, t⟩])
    ∧ (j' ≠ j → (addTimer j t q).filter (fun c => c.job == j')
        = q.filter (fun c => c.job == j'))
    ∧ ((removeTimer j q).filter (fun c => c.job == j) = [])
    ∧ ((∀ c ∈ q, c.job ≠ j) → removeTimer j q = q) := by
  refine ⟨addTimer_filter_self j t q, fun hne => addTimer_filter_other j j' hne t q,
    filter_job_removeTimerNoLock j q, fun habs => ?_⟩
  unfold removeTimer removeTimerNoLock
  apply List.filter_eq_self.mpr
  intro c hc
  simpa using habs c hc

/-- C2 witness: the general theorem applied at a concrete queue holding an old
entry for job 1 and an entry for job 2. -/
theorem addTimer_replaces_removeTimer_removes_witness :
    ((addTimer 1 2 [⟨1, 3, 3⟩, ⟨2, 5, 4⟩]).filter (fun c => c.job == 1) = [⟨1, 2, 2⟩])
    ∧ ((addTimer 1 2 [⟨1, 3, 3⟩, ⟨2, 5, 4⟩]).filter (fun c => c.job == 2)
        = ([⟨1, 3, 3⟩, ⟨2, 5, 4⟩] : TimerQueue).filter (fun c => c.job == 2))
    ∧ ((removeTimer 1 [⟨1, 3, 3⟩, ⟨2, 5, 4⟩]).filter (fun c => c.job == 1) = [])
    ∧ (removeTimer 1 [⟨2, 5, 4⟩] = [⟨2, 5, 4⟩]) :=
  ⟨(addTimer_replaces_removeTimer_removes 1 2 2 [⟨1, 3, 3⟩, ⟨2, 5, 4⟩]).1,
   (addTimer_replaces_removeTimer_removes 1 2 2 [⟨1, 3, 3⟩, ⟨2, 5, 4⟩]).2.1 (by decide),
   (addTimer_replaces_removeTimer_removes 1 2 2 [⟨1, 3, 3⟩, ⟨2, 5, 4⟩]).2.2.1,
   (addTimer_replaces_removeTimer_removes 1 2 2 [⟨2, 5, 4⟩]).2.2.2 (by decide)⟩

/-! ### The firing loop of `processTimers` -/

lemma due_reset_eq_false {t : CTimer} (h : 0 < t.timeout) : due t.reset = false := by
  simp only [due, CTimer.reset, decide_eq_false_iff_not, not_le]
  exact h

lemma timerPush_filter_of_not_due {t : CTimer} (rest : TimerQueue)
    (h : due t = false) :
    (timerPush t rest).filter due = rest.filter due := by
  unfold timerPush
  rw [List.orderedInsert_eq_take_drop, List.filter_append, List.filter_cons, h]
  simp only [Bool.false_eq_true, if_false]
  rw [← List.filter_append, List.takeWhile_append_dropWhile]

lemma timerPush_coe (t : CTimer) (rest : TimerQueue) :
    ((timerPush t rest : TimerQueue) : Multiset CTimer)
      = t ::ₘ (rest : Multiset CTimer) :=
  Multiset.coe_eq_coe.mpr (List.perm_orderedInsert _ _ _)

lemma fireLoop_spec (fuel : Nat) (q : TimerQueue) (jobs : List Nat)
    (hs : q.Sorted timerRel) (hpos : ∀ t ∈ q, 0 < t.timeout)
    (hfuel : (q.filter due).length ≤ fuel) :
    (fireLoop fuel q jobs).2 = jobs ++ (q.filter due).map CTimer.job
    ∧ ((fireLoop fuel q jobs).1 : Multiset CTimer)
        = ↑((q.filter due).map CTimer.reset) + ↑(q.filter (fun t => !due t)) := by
  induction fuel generalizing q jobs with
  | zero =>
      have hnil : q.filter due = [] :=
        List.length_eq_zero.mp (Nat.le_zero.mp hfuel)
      have hall : ∀ t ∈ q, ¬ (due t = true) := List.filter_eq_nil_iff.mp hnil
      have hself : q.filter (fun t => !due t) = q := by
        apply List.filter_eq_self.mpr
        intro t ht
        simpa using hall t ht
      simp [fireLoop, hnil, hself]
  | succ fuel ih =>
      match q with
      | [] => simp [fireLoop]
      | t :: rest =>
        by_cases hd : due t = true
        · -- head is due: record the job, rearm, push back, recurse
          have hposT : 0 < t.timeout := hpos t (List.mem_cons_self t rest)
          have hdr : due t.reset = false := due_reset_eq_false hposT
          have hfd : (timerPush t.reset rest).filter due = rest.filter due :=
            timerPush_filter_of_not_due rest hdr
          have hs' : (timerPush t.reset rest).Sorted timerRel :=
            List.Sorted.orderedInsert t.reset rest hs.of_cons
          have hpos' : ∀ u ∈ timerPush t.reset rest, 0 < u.timeout := by
            intro u hu
            rcases (List.mem_orderedInsert timerRel).mp hu with h | h
            · rw [h]; exact hposT
            · exact hpos u (List.mem_cons_of_mem t h)
          have hfuel' : ((timerPush t.reset rest).filter due).length ≤ fuel := by
            rw [hfd]
            simp only [List.filter_cons, hd, if_true, List.length_cons] at hfuel
            omega
          obtain ⟨ihj, ihq⟩ := ih (timerPush t.reset rest) (jobs ++ [t.job]) hs' hpos' hfuel'
          have hstep : fireLoop (fuel + 1) (t :: rest) jobs
              = fireLoop fuel (timerPush t.reset rest) (jobs ++ [t.job]) := by
            simp [fireLoop, hd]
          constructor
          · rw [hstep, ihj, hfd]
            simp [List.filter_cons, hd]
          · rw [hstep, ihq, hfd]
            have hcoe : ((timerPush t.reset rest).filter (fun u => !due u) : Multiset CTimer)
                = t.reset ::ₘ ↑(rest.filter (fun u => !due u)) := by
              have hperm : ((timerPush t.reset rest).filter (fun u => !due u)).Perm
                  ((t.reset :: rest).filter (fun u => !due u)) :=
                (List.perm_orderedInsert _ _ _).filter _
              rw [Multiset.coe_eq_coe.mpr hperm]
              simp [List.filter_cons, hdr]
            rw [hcoe]
            simp only [List.filter_cons, hd, if_true, Bool.not_true, Bool.false_eq_true,
              if_false, List.map_cons, ← Multiset.cons_coe, Multiset.cons_add,
              Multiset.add_cons]
        · -- head is not due: sortedness makes every entry not due; the loop stops
          have hd' : due t = false := by simpa using hd
          have hall : ∀ u ∈ t :: rest, ¬ (due u = true) := by
            intro u hu
            rcases List.mem_cons.mp hu with h | h
            · rw [h]; exact hd
            · have hrel : timerRel t u := List.rel_of_sorted_cons hs u h
              have htpos : ¬ t.time ≤ 0 := by simpa [due] using hd
              simp only [due, decide_eq_true_eq]
              intro hle
              exact htpos (le_trans hrel hle)
          have hnil : (t :: rest).filter due = [] := List.filter_eq_nil_iff.mpr hall
          have hself : (t :: rest).filter (fun u => !due u) = t :: rest := by
            apply List.filter_eq_self.mpr
            intro u hu
            simpa using hall u hu
          have hstop : fireLoop (fuel + 1) (t :: rest) jobs = (t :: rest, jobs) := by
            simp [fireLoop, hd']
          rw [hstop, hnil, hself]
          simp

/-- C1: a `processTimers` tick subtracts the same uniform elapsed amount from
every entry — so the strict `remaining`-order of any two entries is invariant
under the shift — and, whenever some timer has expired (the code's
`m_timers.top() <= time` guard), it hands out exactly the jobs whose
decremented remaining time is `≤ 0` and rearms each such entry to its full
original period before re-insertion, leaving every other entry merely
decremented; when no timer has expired the queue and due set are untouched,
and the due set demanded by the claim is exactly empty (the deferred uniform
decrement strands no job below zero). -/
theorem processTimers_tick_spec (time : ℚ) (q : TimerQueue)
    (hs : q.Sorted timerRel) (hpos : ∀ t ∈ q, 0 < t.timeout) :
    (∀ a ∈ q, ∀ b ∈ q,
        ((a.sub time).time < (b.sub time).time ↔ a.time < b.time))
    ∧ ((∃ t, q.head? = some t ∧ t.time ≤ time) →
        (processTimers time q).2
            = ((q.map (fun c => c.sub time)).filter due).map CTimer.job
        ∧ ((processTimers time q).1 : Multiset CTimer)
            = ↑(((q.map (fun c => c.sub time)).filter due).map CTimer.reset)
              + ↑((q.map (fun c => c.sub time)).filter (fun t => !due t))
        ∧ (∀ c ∈ q, due (c.sub time) = true → c.reset ∈ (processTimers time q).1))
    ∧ ((∀ t, q.head? = some t → time < t.time) →
        processTimers time q = (q, [])
        ∧ (q.map (fun c => c.sub time)).filter due = []) := by
  refine ⟨?_, ?_, ?_⟩
  · intro a _ b _
    simp only [CTimer.sub]
    constructor <;> intro h <;> linarith
  · rintro ⟨t, hh, hle⟩
    match q, hs, hpos, hh with
    | t' :: rest, hs, hpos, hh =>
      rw [List.head?_cons, Option.some.injEq] at hh
      subst hh
      have hs1 : ((t' :: rest).map (fun c => c.sub time)).Sorted timerRel := by
        rw [List.Sorted, List.pairwise_map]
        refine hs.imp ?_
        intro a b hab
        simp only [timerRel, CTimer.sub]
        exact sub_le_sub_right hab time
      have hpos1 : ∀ u ∈ (t' :: rest).map (fun c => c.sub time), 0 < u.timeout := by
        intro u hu
        obtain ⟨c, hc, rfl⟩ := List.mem_map.mp hu
        exact hpos c hc
      obtain ⟨hj, hq⟩ := fireLoop_spec _ _ []
        hs1 hpos1 (List.length_filter_le _ _)
      have hpt : processTimers time (t' :: rest)
          = fireLoop ((t' :: rest).map (fun c => c.sub time)).length
              ((t' :: rest).map (fun c => c.sub time)) [] := by
        simp only [processTimers, if_neg (not_lt.mpr hle)]
      refine ⟨by rw [hpt, hj]; simp, by rw [hpt, hq], ?_⟩
      intro c hc hdc
      have h3 : (c.sub time).reset
          ∈ (((t' :: rest).map (fun c => c.sub time)).filter due).map CTimer.reset :=
        List.mem_map_of_mem _
          (List.mem_filter.mpr ⟨List.mem_map_of_mem _ hc, hdc⟩)
      have h4 : (c.sub time).reset = c.reset := rfl
      rw [← Multiset.mem_coe, hpt, hq, ← h4]
      exact Multiset.mem_add.mpr (Or.inl (Multiset.mem_coe.mpr h3))
  · intro hlt
    match q, hs, hlt with
    | [], _, _ => exact ⟨rfl, rfl⟩
    | t :: rest, hs, hlt =>
      have htl : time < t.time := hlt t rfl
      refine ⟨by simp only [processTimers, if_pos htl], ?_⟩
      apply List.filter_eq_nil_iff.mpr
      intro u hu
      obtain ⟨c, hc, rfl⟩ := List.mem_map.mp hu
      have hct : t.time ≤ c.time := by
        rcases List.mem_cons.mp hc with h | h
        · rw [h]
        · exact List.rel_of_sorted_cons hs c h
      simp only [due, CTimer.sub, decide_eq_true_eq, not_le]
      linarith

/-- C1 witness: a firing tick on `[CTimer 1 2 1, CTimer 2 5 3]` with one
second elapsed, and a non-firing tick where the earliest deadline is still
ahead. -/
theorem processTimers_tick_spec_witness :
    ((processTimers 1 [⟨1, 2, 1⟩, ⟨2, 5, 3⟩]).2
        = ((([⟨1, 2, 1⟩, ⟨2, 5, 3⟩] : TimerQueue).map
            (fun c => c.sub 1)).filter due).map CTimer.job)
    ∧ (CTimer.reset ⟨1, 2, 1⟩ ∈ (processTimers 1 [⟨1, 2, 1⟩, ⟨2, 5, 3⟩]).1)
    ∧ (processTimers 1 [⟨1, 2, 5⟩] = ([⟨1, 2, 5⟩], [])) :=
  ⟨((processTimers_tick_spec 1 [⟨1, 2, 1⟩, ⟨2, 5, 3⟩] (by decide) (by decide)).2.1
      ⟨⟨1, 2, 1⟩, rfl, by norm_num⟩).1,
   ((processTimers_tick_spec 1 [⟨1, 2, 1⟩, ⟨2, 5, 3⟩] (by decide) (by decide)).2.1
      ⟨⟨1, 2, 1⟩, rfl, by norm_num⟩).2.2 ⟨1, 2, 1⟩ (by decide)
      (by norm_num [due, CTimer.sub]),
   ((processTimers_tick_spec 1 [⟨1, 2, 5⟩] (by decide) (by decide)).2.2
      (by intro t ht; rw [List.head?_cons, Option.some.injEq] at ht; subst ht; norm_num)).1⟩

/-! ### Ticks never resurrect a removed job -/

lemma fireLoop_no_foreign_job (j : Nat) (fuel : Nat) :
    ∀ (q : TimerQueue) (jobs : List Nat),
      (∀ t ∈ q, t.job ≠ j) → j ∉ jobs →
      j ∉ (fireLoop fuel q jobs).2
      ∧ ∀ t ∈ (fireLoop fuel q jobs).1, t.job ≠ j := by
  induction fuel with
  | zero => intro q jobs hq hj; exact ⟨hj, hq⟩
  | succ fuel ih =>
      intro q jobs hq hj
      match q with
      | [] => exact ⟨hj, by simp [fireLoop]⟩
      | t :: rest =>
        by_cases hd : due t = true
        · have hstep : fireLoop (fuel + 1) (t :: rest) jobs
              = fireLoop fuel (timerPush t.reset rest) (jobs ++ [t.job]) := by
            simp [fireLoop, hd]
          rw [hstep]
          apply ih
          · intro u hu
            rcases (List.mem_orderedInsert timerRel).mp hu with h | h
            · rw [h]; exact hq t (List.mem_cons_self t rest)
            · exact hq u (List.mem_cons_of_mem t h)
          · intro hmem
            rcases List.mem_append.mp hmem with h | h
            · exact hj h
            · have hjt : j = t.job := by simpa using h
              exact hq t (List.mem_cons_self t rest) hjt.symm
        · have hd' : due t = false := by simpa using hd
          have hstop : fireLoop (fuel + 1) (t :: rest) jobs = (t :: rest, jobs) := by
            simp [fireLoop, hd']
          rw [hstop]
          exact ⟨hj, hq⟩

lemma processTimers_no_foreign_job (j : Nat) (time : ℚ) (q : TimerQueue)
    (hq : ∀ t ∈ q, t.job ≠ j) :
    j ∉ (processTimers time q).2
    ∧ ∀ t ∈ (processTimers time q).1, t.job ≠ j := by
  match q with
  | [] => exact ⟨by simp [processTimers], by simp [processTimers]⟩
  | t :: rest =>
    by_cases hlt : time < t.time
    · simp only [processTimers, if_pos hlt]
      exact ⟨by simp, hq⟩
    · simp only [processTimers, if_neg hlt]
      apply fireLoop_no_foreign_job
      · intro u hu
        obtain ⟨c, hc, rfl⟩ := List.mem_map.mp hu
        exact hq c hc
      · simp

lemma removeTimer_no_job (j : Nat) (q : TimerQueue) :
    ∀ t ∈ removeTimer j q, t.job ≠ j := by
  intro t ht
  have := (List.mem_filter.mp ht).2
  simpa using this

/-- C9: due jobs are handed out by `processTimers` only together with the
already-rearmed queue (the function's result), i.e. they are invoked after
the due set is computed and every due entry re-inserted; consequently a job
that removes itself (`removeTimer`) during its invocation is absent from the
queue from then on and is never handed out again by any later sequence of
ticks. -/
theorem removed_job_never_fires_again (j : Nat) (q : TimerQueue) (ticks : List ℚ) :
    j ∉ (runTicks (removeTimer j q) ticks).2 := by
  suffices h : ∀ (q' : TimerQueue), (∀ t ∈ q', t.job ≠ j) →
      j ∉ (runTicks q' ticks).2 from h _ (removeTimer_no_job j q)
  induction ticks with
  | nil => intro q' _; simp [runTicks]
  | cons e es ih =>
      intro q' hq'
      obtain ⟨h1, h2⟩ := processTimers_no_foreign_job j e q' hq'
      simp only [runTicks, List.mem_append]
      rintro (h | h)
      · exact h1 h
      · exact ih _ h2 h

/-! ### Clipboard channels, screen state and native-event pre-dispatch -/

/-- Clipboard payload bytes. -/
abbrev Data := List Nat

/-- A pending ICCCM transfer request (spec `TransferRequest`): created when a
peer asks for the clipboard data. -/
structure TransferRequest where
  ownerWindow : Nat
  requestorWindow : Nat
  targetFormat : Nat
  timestamp : Nat
  property : Nat
deriving Repr, DecidableEq

/-- Modelled from the spec: `CXWindowsClipboard` (its implementation is not in
src/, only its call sites are): one channel per clipboard id, owning the
selection-ownership state, the published content and the ordered pending
`TransferRequest`s. -/
structure CXWindowsClipboard where
  selection : Nat
  window : Nat
  owned : Bool
  content : Option Data
  openTime : Option Nat
  requests : List TransferRequest
deriving Repr, DecidableEq

/-- Modelled from the spec: `CXWindowsClipboard::lost` — on
selection-ownership loss the channel is marked `Unowned`. -/
def CXWindowsClipboard.lost (time : Nat) (c : CXWindowsClipboard) : CXWindowsClipboard :=
  let _ := time
  { c with owned := false }

/-- Modelled from the spec: `CXWindowsClipboard::addRequest` — enqueue a
transfer request; pending entries are uniquely keyed by
`(requestorWindow, targetProperty)`, so an entry with the same key is
replaced. -/
def CXWindowsClipboard.addRequest (owner requestor target time property : Nat)
    (c : CXWindowsClipboard) : CXWindowsClipboard :=
  let keep := c.requests.filter
    (fun r => !(r.requestorWindow == requestor && r.property == property))
  { c with requests := keep ++ [⟨owner, requestor, target, time, property⟩] }

/-- Modelled from the spec: `CXWindowsClipboard::processRequest` — an advisory
property deletion paces the chunked transfer of the matching pending request;
the call reports whether this channel holds that request (the caller's loop
stops at the first channel that does).  The byte-level chunk bookkeeping is
abstracted away; no claim depends on it. -/
def CXWindowsClipboard.processRequest (requestor time property : Nat)
    (c : CXWindowsClipboard) : CXWindowsClipboard × Bool :=
  let _ := time
  (c, c.requests.any (fun r => r.requestorWindow == requestor && r.property == property))

/-- Modelled from the spec: `CXWindowsClipboard::destroyRequest` — "if the
requestor window is destroyed mid-transfer, the corresponding
`TransferRequest` is discarded silently — no completion signal is sent (the
peer is gone)"; the call reports whether it held any request of that
requestor, which the caller's loop uses as its stopping condition. -/
def CXWindowsClipboard.destroyRequest (w : Nat) (c : CXWindowsClipboard) :
    CXWindowsClipboard × Bool :=
  if c.requests.any (fun r => r.requestorWindow == w) then
    ({ c with requests := c.requests.filter (fun r => r.requestorWindow != w) }, true)
  else (c, false)

/-- The screen adapter's state (`CXWindowsScreen` data members used by the
claims): the display handle, the per-id clipboard channel slots (`NULL` as
`none`), the SCREENSAVER atom and the cached screen shape. -/
structure CXWindowsScreen where
  display : Option Nat
  clipboard : List (Option CXWindowsClipboard)
  atomScreensaver : Nat
  x : Int
  y : Int
  w : Int
  h : Int
deriving Repr, DecidableEq

/-- The method `CXWindowsScreen::getClipboardID`: scan the slots for a bound channel
whose selection atom matches; `none` models `kClipboardEnd`. -/
def getClipboardIDFrom (selection : Nat) :
    Nat → List (Option CXWindowsClipboard) → Option Nat
  | _, [] => none
  | i, none :: rest => getClipboardIDFrom selection (i + 1) rest
  | i, some c :: rest =>
    if c.selection == selection then some i
    else getClipboardIDFrom selection (i + 1) rest

def getClipboardID (selection : Nat) (cs : List (Option CXWindowsClipboard)) :
    Option Nat :=
  getClipboardIDFrom selection 0 cs

/-- The `for` loop of `CXWindowsScreen::processClipboardRequest`: "check every
clipboard until one returns success" — `break` on the first channel whose
`processRequest` returns true. -/
def processClipboardRequestLoop (requestor time property : Nat) :
    List (Option CXWindowsClipboard) → List (Option CXWindowsClipboard)
  | [] => []
  | none :: rest => none :: processClipboardRequestLoop requestor time property rest
  | some c :: rest =>
    let r := c.processRequest requestor time property
    if r.2 then some r.1 :: rest
    else some r.1 :: processClipboardRequestLoop requestor time property rest

/-- The `for` loop of `CXWindowsScreen::destroyClipboardRequest`: "check every
clipboard until one returns success" — `break` on the first channel whose
`destroyRequest` returns true. -/
def destroyClipboardRequestLoop (w : Nat) :
    List (Option CXWindowsClipboard) → List (Option CXWindowsClipboard)
  | [] => []
  | none :: rest => none :: destroyClipboardRequestLoop w rest
  | some c :: rest =>
    let r := c.destroyRequest w
    if r.2 then some r.1 :: rest
    else some r.1 :: destroyClipboardRequestLoop w rest

def CXWindowsScreen.destroyClipboardRequest (st : CXWindowsScreen) (w : Nat) :
    CXWindowsScreen :=
  { st with clipboard := destroyClipboardRequestLoop w st.clipboard }

/-- The call `m_clipboard[id]->lost(time)` after a matching `getClipboardID`. -/
def lostClipboard (time id : Nat) (cs : List (Option CXWindowsClipboard)) :
    List (Option CXWindowsClipboard) :=
  match cs.getD id none with
  | some c => cs.set id (some (c.lost time))
  | none => cs

/-- The call `m_clipboard[id]->addRequest(...)` after a matching `getClipboardID`. -/
def addRequestClipboard (owner requestor target time property id : Nat)
    (cs : List (Option CXWindowsClipboard)) : List (Option CXWindowsClipboard) :=
  match cs.getD id none with
  | some c => cs.set id (some (c.addRequest owner requestor target time property))
  | none => cs

/-- The native events distinguished by `CXWindowsScreen::onPreDispatch`. -/
inductive XEvent
  | mappingNotify
  | selectionClear (selection : Nat) (time : Nat)
  | selectionNotify (requestor : Nat) (property : Option Nat)
  | selectionRequest (selection owner requestor target time property : Nat)
  | propertyNotifyDelete (window : Nat) (time : Nat) (atom : Nat)
  | propertyNotifyOther (window : Nat)
  | clientMessage (messageType : Nat) (format : Nat) (data0 : Int)
  | destroyNotify (window : Nat)
  | other
deriving Repr, DecidableEq

/-- Everything `onPreDispatch` does besides returning its `handled` flag: the
updated screen state, the calls made on the Event Consumer
(`onScreensaver` argument, `onGrabClipboard` id, whether
`IScreenEventHandler::onPreDispatch` was reached), whether the
ScreensaverController inspected the event, the advisory property the
SelectionNotify branch deletes, and any completion signals sent to
requestors. -/
structure DispatchOut where
  st : CXWindowsScreen
  handled : Bool
  screensaverArg : Option Bool
  grabbed : Option Nat
  saverInspected : Bool
  forwarded : Bool
  propertyDeleted : Option (Nat × Nat)
  completions : List Nat
deriving Repr, DecidableEq

/-- The shared tail of `onPreDispatch`: the ScreensaverController gets an
advisory look, then the Event Consumer's `onPreDispatch` decides `handled`. -/
def dispatchTail (eh : XEvent → Bool) (st : CXWindowsScreen) (ev : XEvent) :
    DispatchOut :=
  { st := st, handled := eh ev, screensaverArg := none, grabbed := none,
    saverInspected := true, forwarded := true, propertyDeleted := none,
    completions := [] }

/-- The method `CXWindowsScreen::onPreDispatch`: the internal dispatch switch.  A branch
that `return true`s is fully handled (neither the ScreensaverController nor
the Event Consumer sees the event); a branch that `break`s falls through to
`dispatchTail`. -/
def onPreDispatch (eh : XEvent → Bool) (st : CXWindowsScreen) (ev : XEvent) :
    DispatchOut :=
  match ev with
  | .mappingNotify => dispatchTail eh st ev
  | .selectionClear sel time =>
    match getClipboardID sel st.clipboard with
    | some id =>
      { st := { st with clipboard := lostClipboard time id st.clipboard },
        handled := true, screensaverArg := none, grabbed := some id,
        saverInspected := false, forwarded := false, propertyDeleted := none,
        completions := [] }
    | none => dispatchTail eh st ev
  | .selectionNotify requestor property =>
    { st := st, handled := true, screensaverArg := none, grabbed := none,
      saverInspected := false, forwarded := false,
      propertyDeleted := property.map (fun p => (requestor, p)),
      completions := [] }
  | .selectionRequest sel owner requestor target time property =>
    match getClipboardID sel st.clipboard with
    | some id =>
      { st := { st with clipboard :=
            addRequestClipboard owner requestor target time property id st.clipboard },
        handled := true, screensaverArg := none, grabbed := none,
        saverInspected := false, forwarded := false, propertyDeleted := none,
        completions := [] }
    | none => dispatchTail eh st ev
  | .propertyNotifyDelete window time atom =>
    { st := { st with clipboard :=
          processClipboardRequestLoop window time atom st.clipboard },
      handled := true, screensaverArg := none, grabbed := none,
      saverInspected := false, forwarded := false, propertyDeleted := none,
      completions := [] }
  | .propertyNotifyOther _ => dispatchTail eh st ev
  | .clientMessage messageType format data0 =>
    if messageType == st.atomScreensaver || format == 32 then
      { st := st, handled := true, screensaverArg := some (data0 != 0),
        grabbed := none, saverInspected := false, forwarded := false,
        propertyDeleted := none, completions := [] }
    else dispatchTail eh st ev
  | .destroyNotify window =>
    dispatchTail eh (st.destroyClipboardRequest window) ev
  | .other => dispatchTail eh st ev

/-! ### Clipboard set/get wrappers, cursor query, fault handler -/

/-- The X11 `CurrentTime` wildcard sentinel. -/
def currentTime : Nat := 0

/-- Modelled from the spec: the backend's timestamp fetch
(`CXWindowsUtil::getCurrentTime` is not in src/).  "Get the actual time.
ICCCM does not allow CurrentTime": the fetched stamp is a real timestamp,
never the wildcard sentinel. -/
structure XBackend where
  fetchedTime : Nat
  fetchedTime_ne : fetchedTime ≠ currentTime

def CXWindowsUtil.getCurrentTime (b : XBackend) : Nat := b.fetchedTime

/-- Modelled from the spec: `CXWindowsClipboard::open` on the local
relinquish path — begin a sequence of operations on the channel at the given
timestamp (the spec's relinquish sequence "open the channel, clear its
content, close it" takes the local open to succeed). -/
def CXWindowsClipboard.openAt (c : CXWindowsClipboard) (ts : Nat) : CXWindowsClipboard :=
  { c with openTime := some ts }

/-- Modelled from the spec: `CXWindowsClipboard::empty` in the relinquish
sequence — ownership explicitly relinquished and content cleared. -/
def CXWindowsClipboard.empty (c : CXWindowsClipboard) : CXWindowsClipboard :=
  { c with owned := false, content := none }

/-- Modelled from the spec: `CXWindowsClipboard::close`. -/
def CXWindowsClipboard.close (c : CXWindowsClipboard) : CXWindowsClipboard :=
  { c with openTime := none }

/-- Modelled from the spec: `CClipboard::copy(m_clipboard[id], data, ts)` —
assert ownership and publish the content at the timestamp (copy-on-write into
native storage). -/
def copyToChannel (c : CXWindowsClipboard) (d : Data) (ts : Nat) : CXWindowsClipboard :=
  let _ := ts
  { c with owned := true, content := some d }

/-- Modelled from the spec: `CClipboard::copy(out, m_clipboard[id], ts)` —
copy out the currently available content at the timestamp. -/
def copyFromChannel (c : CXWindowsClipboard) (ts : Nat) : Option Data :=
  let _ := ts
  c.content

/-- The channel calls `setClipboard` makes, in order. -/
inductive ClipOp
  | openAt (ts : Nat)
  | empty
  | close
  | publish (ts : Nat)
deriving Repr, DecidableEq

/-- The method `CXWindowsScreen::setClipboard`: fail if no channel is bound for the id;
otherwise fetch a real (non-`CurrentTime`) timestamp, then either publish the
data, or — when the data is absent — relinquish ownership by opening the
channel at that timestamp, clearing its content and closing it.  Also returns
the trace of channel calls made. -/
def CXWindowsScreen.setClipboard (st : CXWindowsScreen) (b : XBackend) (id : Nat)
    (data : Option Data) : CXWindowsScreen × Bool × List ClipOp :=
  match st.clipboard.getD id none with
  | none => (st, false, [])
  | some c =>
    let ts := CXWindowsUtil.getCurrentTime b
    match data with
    | some d =>
      ({ st with clipboard := st.clipboard.set id (some (copyToChannel c d ts)) },
        true, [ClipOp.publish ts])
    | none =>
      ({ st with clipboard := st.clipboard.set id (some (((c.openAt ts).empty).close)) },
        true, [ClipOp.openAt ts, ClipOp.empty, ClipOp.close])

/-- The method `CXWindowsScreen::getClipboard`: none if no channel is bound for the id;
otherwise fetch a real timestamp and copy the available content out. -/
def CXWindowsScreen.getClipboard (st : CXWindowsScreen) (b : XBackend) (id : Nat) :
    Option Data :=
  match st.clipboard.getD id none with
  | none => none
  | some c => copyFromChannel c (CXWindowsUtil.getCurrentTime b)

/-- C++ `>> 1` on a signed 32-bit value: an arithmetic (floor) shift. -/
def shr1 : Int → Int
  | .ofNat n => .ofNat (n >>> 1)
  | .negSucc n => .negSucc (n >>> 1)

/-- The method `CXWindowsScreen::getCursorCenter`: `(m_x + (m_w >> 1), m_y + (m_h >> 1))`. -/
def CXWindowsScreen.getCursorCenter (st : CXWindowsScreen) : Int × Int :=
  (st.x + shr1 st.w, st.y + shr1 st.h)

/-- The method `CXWindowsScreen::getCursorPos`: the pointer coordinates when the
`XQueryPointer` backend query succeeds, else the screen center; the query
result is passed in as `Option`. -/
def CXWindowsScreen.getCursorPos (st : CXWindowsScreen)
    (query : Option (Int × Int)) : Int × Int :=
  match query with
  | some p => p
  | none => st.getCursorCenter

/-- The handler `CXWindowsScreen::ioErrorHandler`: on irrecoverable display disconnection
clear `m_display` (so nothing uses it again), call the receiver's
`onError()`, and `exit(17)`.  The result models the terminated process:
the state at termination, whether `onError` ran, and the exit code; control
never returns to the loop. -/
def ioErrorHandler (st : CXWindowsScreen) : CXWindowsScreen × Bool × Nat :=
  ({ st with display := none }, true, 17)

/-! ### Claims about the clipboard wrappers, cursor query and fault handler -/

/-- A backend whose fetched timestamp is the real stamp 5. -/
def testBackend : XBackend := ⟨5, by decide⟩

/-- C7: on an id with no bound channel (`m_clipboard[id] == NULL`) both
`setClipboard` and `getClipboard` fail locally — `false`/`none` — with no
state change, no channel call, and no error raised. -/
theorem unknownClipboardId_fails_locally (st : CXWindowsScreen) (b : XBackend)
    (id : Nat) (h : st.clipboard.getD id none = none) :
    (∀ d : Option Data, st.setClipboard b id d = (st, false, []))
    ∧ st.getClipboard b id = none := by
  constructor
  · intro d
    unfold CXWindowsScreen.setClipboard
    rw [h]
  · unfold CXWindowsScreen.getClipboard
    rw [h]

/-- A screen whose only clipboard slot is unbound. -/
def stNoChan : CXWindowsScreen :=
  { display := some 1, clipboard := [none], atomScreensaver := 7,
    x := 0, y := 0, w := 0, h := 0 }

/-- C7 witness: the theorem applied at the unbound slot 0. -/
theorem unknownClipboardId_fails_locally_witness :
    stNoChan.setClipboard testBackend 0 (some [7]) = (stNoChan, false, [])
    ∧ stNoChan.getClipboard testBackend 0 = none :=
  ⟨(unknownClipboardId_fails_locally stNoChan testBackend 0 rfl).1 (some [7]),
   (unknownClipboardId_fails_locally stNoChan testBackend 0 rfl).2⟩

/-- C5: on an id with a bound channel, `setClipboard` with absent data
relinquishes ownership — the channel is opened at the freshly fetched
non-`CurrentTime` timestamp, its content cleared and ownership dropped, and
it is closed — the call returns true, and an immediately following
`getClipboard` returns none. -/
theorem setClipboard_none_relinquishes (st : CXWindowsScreen) (b : XBackend)
    (id : Nat) (c : CXWindowsClipboard)
    (hc : st.clipboard.getD id none = some c) :
    (st.setClipboard b id none).2.1 = true
    ∧ (st.setClipboard b id none).2.2
        = [ClipOp.openAt (CXWindowsUtil.getCurrentTime b), ClipOp.empty, ClipOp.close]
    ∧ CXWindowsUtil.getCurrentTime b ≠ currentTime
    ∧ (st.setClipboard b id none).1.clipboard.getD id none
        = some { c with owned := false, content := none, openTime := none }
    ∧ (st.setClipboard b id none).1.getClipboard b id = none := by
  have hlen : id < st.clipboard.length := by
    by_contra hn
    push_neg at hn
    rw [List.getD_eq_default _ _ hn] at hc
    exact Option.noConfusion hc
  have hset : (st.setClipboard b id none).1.clipboard.getD id none
      = some { c with owned := false, content := none, openTime := none } := by
    unfold CXWindowsScreen.setClipboard
    rw [hc]
    simp [CXWindowsClipboard.openAt, CXWindowsClipboard.empty, CXWindowsClipboard.close,
      List.getD, List.getElem?_set_self, hlen]
  refine ⟨?_, ?_, b.fetchedTime_ne, hset, ?_⟩
  · unfold CXWindowsScreen.setClipboard
    rw [hc]
  · unfold CXWindowsScreen.setClipboard
    rw [hc]
  · unfold CXWindowsScreen.getClipboard
    rw [hset]
    rfl

/-- A bound channel currently owning published content. -/
def chanA : CXWindowsClipboard :=
  { selection := 31, window := 2, owned := true, content := some [104, 105],
    openTime := none, requests := [] }

/-- A screen owning clipboard 0 with content. -/
def stOwned : CXWindowsScreen :=
  { display := some 1, clipboard := [some chanA], atomScreensaver := 7,
    x := 0, y := 0, w := 0, h := 0 }

/-- C5 witness: relinquishing the owned channel 0 of `stOwned`. -/
theorem setClipboard_none_relinquishes_witness :
    (stOwned.setClipboard testBackend 0 none).2.1 = true
    ∧ (stOwned.setClipboard testBackend 0 none).2.2
        = [ClipOp.openAt 5, ClipOp.empty, ClipOp.close]
    ∧ (stOwned.setClipboard testBackend 0 none).1.getClipboard testBackend 0 = none :=
  ⟨(setClipboard_none_relinquishes stOwned testBackend 0 chanA rfl).1,
   (setClipboard_none_relinquishes stOwned testBackend 0 chanA rfl).2.1,
   (setClipboard_none_relinquishes stOwned testBackend 0 chanA rfl).2.2.2.2⟩

lemma shr1_nonneg_eq_div (n : Int) (h : 0 ≤ n) : shr1 n = n / 2 := by
  match n, h with
  | Int.ofNat m, _ =>
    show ((m >>> 1 : Nat) : Int) = ((m : Nat) : Int) / 2
    rw [Nat.shiftRight_eq_div_pow, pow_one]
    omega

/-- C10: `getCursorPos` always produces a defined position without reporting
failure: the queried pointer coordinates when `XQueryPointer` succeeds, and
otherwise the screen center `(x + w/2, y + h/2)` with integer halving. -/
theorem getCursorPos_total (st : CXWindowsScreen) (hw : 0 ≤ st.w) (hh : 0 ≤ st.h) :
    (∀ p : Int × Int, st.getCursorPos (some p) = p)
    ∧ st.getCursorPos none = (st.x + st.w / 2, st.y + st.h / 2) := by
  refine ⟨fun p => rfl, ?_⟩
  unfold CXWindowsScreen.getCursorPos CXWindowsScreen.getCursorCenter
  rw [shr1_nonneg_eq_div st.w hw, shr1_nonneg_eq_div st.h hh]

/-- A screen with a 1280 by 1024 shape anchored at (10, 20). -/
def stShape : CXWindowsScreen :=
  { display := some 1, clipboard := [], atomScreensaver := 7,
    x := 10, y := 20, w := 1280, h := 1024 }

/-- C10 witness: a successful query returns the queried point; a failed query
returns the center of `stShape`. -/
theorem getCursorPos_total_witness :
    stShape.getCursorPos (some (3, 4)) = (3, 4)
    ∧ stShape.getCursorPos none = (10 + 1280 / 2, 20 + 1024 / 2) :=
  ⟨(getCursorPos_total stShape (by decide) (by decide)).1 (3, 4),
   (getCursorPos_total stShape (by decide) (by decide)).2⟩

/-- C8: the X I/O fault handler clears the display handle, notifies the
receiver via `onError()`, and terminates the process with the single fixed
exit code 17, which is non-zero and therefore distinct from the exit code 0
of a normal shutdown; it never continues the loop (its result is the
terminated process). -/
theorem ioErrorHandler_spec (st st' : CXWindowsScreen) :
    (ioErrorHandler st).1.display = none
    ∧ (ioErrorHandler st).2.1 = true
    ∧ (ioErrorHandler st).2.2 = 17
    ∧ (ioErrorHandler st).2.2 ≠ 0
    ∧ (ioErrorHandler st).2.2 = (ioErrorHandler st').2.2 := by
  refine ⟨rfl, rfl, rfl, ?_, rfl⟩
  simp [ioErrorHandler]

/-- A screen whose SCREENSAVER atom is 7, with no bound clipboards. -/
def stSaver : CXWindowsScreen :=
  { display := some 1, clipboard := [], atomScreensaver := 7,
    x := 0, y := 0, w := 0, h := 0 }

/-- C3 (refuting evaluation): the guard in the `ClientMessage` branch is
`message_type == m_atomScreensaver || format == 32`, so a ClientMessage whose
message type (8) is NOT the screensaver atom (7) but whose format is 32 is
still consumed as a screensaver toggle: `onScreensaver(true)` is called, the
event is fully handled, and neither the ScreensaverController nor the Event
Consumer ever sees it — against the claim's "exactly when the message type
equals the screensaver atom" (and against the branch's own comment, which
calls it a screen-saver activation event). -/
theorem clientMessage_format32_swallowed :
    ((onPreDispatch (fun _ => false) stSaver (XEvent.clientMessage 8 32 1)).handled = true)
    ∧ ((onPreDispatch (fun _ => false) stSaver
        (XEvent.clientMessage 8 32 1)).screensaverArg = some true)
    ∧ ((onPreDispatch (fun _ => false) stSaver
        (XEvent.clientMessage 8 32 1)).saverInspected = false)
    ∧ ((onPreDispatch (fun _ => false) stSaver
        (XEvent.clientMessage 8 32 1)).forwarded = false)
    ∧ stSaver.atomScreensaver ≠ 8 :=
  ⟨rfl, rfl, rfl, rfl, by decide⟩

/-! ### C4: DestroyNotify purging -/

lemma destroyRequest_no_match {w : Nat} {c : CXWindowsClipboard}
    (h : c.requests.any (fun r => r.requestorWindow == w) = false) :
    c.destroyRequest w = (c, false) := by
  unfold CXWindowsClipboard.destroyRequest
  rw [h]
  rfl

lemma destroyLoop_first_match (w : Nat) (c : CXWindowsClipboard)
    (post : List (Option CXWindowsClipboard)) :
    ∀ pre : List (Option CXWindowsClipboard),
      (∀ c', some c' ∈ pre → c'.requests.any (fun r => r.requestorWindow == w) = false) →
      c.requests.any (fun r => r.requestorWindow == w) = true →
      destroyClipboardRequestLoop w (pre ++ some c :: post)
        = pre ++ some { c with
            requests := c.requests.filter (fun r => r.requestorWindow != w) } :: post
  | [], _, hc => by
      simp [destroyClipboardRequestLoop, CXWindowsClipboard.destroyRequest, hc]
  | none :: pre, hpre, hc => by
      have ih := destroyLoop_first_match w c post pre
        (fun c' hmem => hpre c' (List.mem_cons_of_mem _ hmem)) hc
      simp only [List.cons_append, destroyClipboardRequestLoop]
      show none :: destroyClipboardRequestLoop w (pre ++ some c :: post) = _
      rw [ih]
  | some c' :: pre, hpre, hc => by
      have hc' := hpre c' (List.mem_cons_self _ _)
      have ih := destroyLoop_first_match w c post pre
        (fun c'' hmem => hpre c'' (List.mem_cons_of_mem _ hmem)) hc
      simp only [List.cons_append, destroyClipboardRequestLoop,
        destroyRequest_no_match hc', Bool.false_eq_true, if_false]
      show some c' :: destroyClipboardRequestLoop w (pre ++ some c :: post) = _
      rw [ih]

/-- C4 (amended): on a window-destroyed event the purge scans the bound
channels in id order and stops at the first channel that reports a matching
request: that channel's requests of the destroyed window are discarded
silently (no completion signal), channels before it are untouched, and so is
every channel after it — even one still holding a request of the same
window.  The event is not marked handled by this branch: the
ScreensaverController inspects it and it is forwarded to the Event
Consumer, whose `onPreDispatch` verdict becomes the handled flag. -/
theorem onPreDispatch_destroyNotify_spec (eh : XEvent → Bool) (st : CXWindowsScreen)
    (w : Nat) (pre post : List (Option CXWindowsClipboard)) (c : CXWindowsClipboard)
    (hdecomp : st.clipboard = pre ++ some c :: post)
    (hpre : ∀ c', some c' ∈ pre →
        c'.requests.any (fun r => r.requestorWindow == w) = false)
    (hc : c.requests.any (fun r => r.requestorWindow == w) = true) :
    (onPreDispatch eh st (XEvent.destroyNotify w)).st.clipboard
        = pre ++ some { c with
            requests := c.requests.filter (fun r => r.requestorWindow != w) } :: post
    ∧ (onPreDispatch eh st (XEvent.destroyNotify w)).handled
        = eh (XEvent.destroyNotify w)
    ∧ (onPreDispatch eh st (XEvent.destroyNotify w)).saverInspected = true
    ∧ (onPreDispatch eh st (XEvent.destroyNotify w)).forwarded = true
    ∧ (onPreDispatch eh st (XEvent.destroyNotify w)).completions = [] := by
  refine ⟨?_, rfl, rfl, rfl, rfl⟩
  show (destroyClipboardRequestLoop w st.clipboard) = _
  rw [hdecomp, destroyLoop_first_match w c post pre hpre hc]

/-- A pending transfer request by requestor window 5. -/
def reqFrom5 : TransferRequest := ⟨1, 5, 9, 100, 11⟩

/-- Channel 0: holds a request of window 5. -/
def chanB : CXWindowsClipboard :=
  { selection := 31, window := 2, owned := true, content := none,
    openTime := none, requests := [reqFrom5] }

/-- Channel 1: holds another request of the same window 5. -/
def chanC : CXWindowsClipboard :=
  { selection := 32, window := 2, owned := true, content := none,
    openTime := none, requests := [⟨1, 5, 9, 100, 12⟩] }

/-- Window 5 has pending requests on both bound channels. -/
def stTwoReqs : CXWindowsScreen :=
  { display := some 1, clipboard := [some chanB, some chanC], atomScreensaver := 7,
    x := 0, y := 0, w := 0, h := 0 }

/-- C4 counterexample: dispatching the destruction of window 5 on `stTwoReqs`
purges the matching request of channel 0 but leaves channel 1's request of
the same destroyed window in place (the loop breaks at the first success), so
it is false that all pending transfer requests whose requestor matches are
purged across every bound clipboard channel. -/
theorem destroyNotify_second_channel_survives :
    ((onPreDispatch (fun _ => false) stTwoReqs
        (XEvent.destroyNotify 5)).st.clipboard.getD 0 none).map
      (fun c => c.requests) = some []
    ∧ ((onPreDispatch (fun _ => false) stTwoReqs
        (XEvent.destroyNotify 5)).st.clipboard.getD 1 none).map
      (fun c => c.requests.any (fun r => r.requestorWindow == 5)) = some true :=
  ⟨rfl, rfl⟩

/-- C4 witness: the amended theorem applied to `stTwoReqs` with the match on
channel 0. -/
theorem onPreDispatch_destroyNotify_spec_witness :
    (onPreDispatch (fun _ => false) stTwoReqs (XEvent.destroyNotify 5)).st.clipboard
        = [some { chanB with requests := [] }, some chanC]
    ∧ (onPreDispatch (fun _ => false) stTwoReqs (XEvent.destroyNotify 5)).handled = false
    ∧ (onPreDispatch (fun _ => false) stTwoReqs
        (XEvent.destroyNotify 5)).saverInspected = true
    ∧ (onPreDispatch (fun _ => false) stTwoReqs (XEvent.destroyNotify 5)).forwarded = true
    ∧ (onPreDispatch (fun _ => false) stTwoReqs (XEvent.destroyNotify 5)).completions = [] := by
  have h := onPreDispatch_destroyNotify_spec (fun _ => false) stTwoReqs 5
    [] [some chanC] chanB rfl (by intro c' hmem; cases hmem) rfl
  exact ⟨by rw [h.1]; rfl, h.2.1, h.2.2.1, h.2.2.2.1, h.2.2.2.2⟩

end Synergy
